import Mathlib

/-!
# Verification of the XeryonEtherCAT SOEM shim

Shallow embedding of `src/native/soemshim-linux/soem_shim.c` (the extended
variant) and `src/native/soemshim/soem_shim.c` (the legacy variant, in
namespace `Legacy`).  The external SOEM protocol stack (`ecx_*` functions)
is out of scope per the specification; its per-call results are supplied by
a `Bus` oracle record.  Machine bytes are `Fin 256`; machine integers are
`Int`/`Nat` with explicit two's-complement conversion where the C code
reinterprets bytes as `int32_t`.

Memory regions (the per-slave and group views into the process image) are
modelled as explicit byte lists.  A slave's region and the group region are
separate fields of the model state; no property proved here crosses that
aliasing boundary.
-/

set_option maxRecDepth 4096

namespace Soem

abbrev Byte := Fin 256

/-- Little-endian assembly of the first four bytes of a region, as the C
`memcpy` into an `int32_t` does on the (little-endian) target platform. -/
def le4ToNat (r : List Byte) : Nat :=
  (r.getD 0 0).val + 256 * (r.getD 1 0).val + 65536 * (r.getD 2 0).val +
    16777216 * (r.getD 3 0).val

/-- Reinterpret an unsigned value below `2^32` as a signed 32-bit integer. -/
def toInt32 (v : Nat) : Int :=
  if v % 4294967296 < 2147483648 then ((v % 4294967296 : Nat) : Int)
  else ((v % 4294967296 : Nat) : Int) - 4294967296

/-- Low byte of a natural number. -/
def lowByte (n : Nat) : Byte := ⟨n % 256, Nat.mod_lt _ (by omega)⟩

/-- Little-endian byte serialisation of `v` over `w` bytes (the C `memcpy`
from a `w`-byte unsigned integer on a little-endian platform). -/
def natToBytesLE : Nat → Nat → List Byte
  | 0, _ => []
  | w + 1, v => lowByte v :: natToBytesLE w (v / 256)

/-- Little-endian serialisation of a signed 32-bit integer (two's
complement), as `memcpy` from an `int32_t` produces. -/
def int32ToBytesLE (p : Int) : List Byte :=
  natToBytesLE 4 ((p % 4294967296).toNat)

/-- `memcpy(&dst[off], src, src.length)`: overwrite `dst` starting at
offset `off` with the bytes of `src`; writes falling outside `dst` are
dropped (the C code only ever writes inside a checked region). -/
def writeBytes : List Byte → Nat → List Byte → List Byte
  | dst, _, [] => dst
  | dst, off, b :: bs => writeBytes (dst.set off b) (off + 1) bs

theorem length_writeBytes (src : List Byte) (dst : List Byte) (off : Nat) :
    (writeBytes dst off src).length = dst.length := by
  induction src generalizing dst off with
  | nil => rfl
  | cons b bs ih => simpa [writeBytes] using ih (dst.set off b) (off + 1)

theorem getElem?_writeBytes (src : List Byte) (dst : List Byte) (off j : Nat) :
    (writeBytes dst off src)[j]? =
      if off ≤ j ∧ j < off + src.length ∧ j < dst.length then src[j - off]?
      else dst[j]? := by
  induction src generalizing dst off with
  | nil =>
    simp only [writeBytes, List.length_nil]
    rw [if_neg (by omega)]
  | cons b bs ih =>
    rw [writeBytes, ih]
    rcases Nat.lt_trichotomy j off with hlt | heq | hgt
    · have h1 : ¬ (off + 1 ≤ j) := by omega
      have h2 : ¬ (off ≤ j) := by omega
      simp only [h1, h2, false_and, if_false, List.length_set]
      exact List.getElem?_set_ne (by omega)
    · subst heq
      have h1 : ¬ (j + 1 ≤ j) := by omega
      simp only [h1, false_and, if_false, List.length_set, List.length_cons]
      by_cases hj : j < dst.length
      · have : j - j = 0 := by omega
        simp [List.getElem?_set_self hj, hj, this]
      · have : dst[j]? = none := List.getElem?_eq_none (by omega)
        simp [hj, List.getElem?_set, this]
    · have h2 : off ≤ j := by omega
      simp only [List.length_set, List.length_cons]
      by_cases hin : off + 1 ≤ j ∧ j < off + 1 + bs.length ∧ j < dst.length
      · have hin' : off ≤ j ∧ j < off + (bs.length + 1) ∧ j < dst.length := by omega
        simp only [hin, if_true, hin', if_true]
        have hj : j - off = (j - (off + 1)) + 1 := by omega
        simp [hj]
      · have hin' : ¬ (off ≤ j ∧ j < off + (bs.length + 1) ∧ j < dst.length) := by omega
        simp only [hin, if_false, hin', if_false]
        exact List.getElem?_set_ne (by omega)

theorem writeBytes_zero_out (src : List Byte) (dst : List Byte) (off j : Nat)
    (h : j < off ∨ off + src.length ≤ j) :
    (writeBytes dst off src)[j]? = dst[j]? := by
  rw [getElem?_writeBytes]
  have : ¬ (off ≤ j ∧ j < off + src.length ∧ j < dst.length) := by omega
  simp [this]

/-- SOEM slave-state constants (`ethercattype.h`). -/
def EC_STATE_INIT : Nat := 1
def EC_STATE_PRE_OP : Nat := 2
def EC_STATE_SAFE_OP : Nat := 4
def EC_STATE_OPERATIONAL : Nat := 8
def EC_STATE_ACK : Nat := 16
def EC_STATE_ERROR : Nat := 16

/-- Error sentinels from `soem_shim.h`. -/
def SOEM_ERR_BAD_ARGS : Int := -13
def SOEM_ERR_SEND_FAIL : Int := -11
def SOEM_ERR_RECV_FAIL : Int := -12
def SOEM_ERR_WKC_LOW : Int := -10

/-- Fixed record sizes from `soem_shim.c` (`IO_RX_BYTES`, `IO_TX_BYTES`). -/
def IO_RX_BYTES : Nat := 20
def IO_TX_BYTES : Nat := 8

/-- One slave of `ecx_context.slavelist[1..]`: runtime state, cached AL
status code, and its input/output region views (null pointer ↦ `none`);
`Ibytes`/`Obytes` are the region lengths. -/
structure Slave where
  state : Nat
  ALstatuscode : Nat
  inputs : Option (List Byte)
  outputs : Option (List Byte)
deriving DecidableEq, Repr

/-- `ec_group` for group 0: the aggregate output/input regions of the
process image and the WKC contributions established by mapping. -/
structure Group where
  outputs : List Byte
  inputs : List Byte
  outputsWKC : Nat
  inputsWKC : Nat
deriving DecidableEq, Repr

/-- `soem_handle_t` of the extended (linux) shim: slave list, group 0,
cached process sizes and the cached working-counter observations. -/
structure Handle where
  slavelist : List Slave
  group : Group
  output_length : Int
  input_length : Int
  last_wkc : Int
  last_expected_wkc : Int
deriving DecidableEq, Repr

/-- `context.slavecount` (SOEM keeps it equal to the populated slave list). -/
def slavecount (h : Handle) : Int := h.slavelist.length

/-- Per-call results of the external SOEM protocol stack, which the spec
places out of scope (`send_cycle`, `receive_cycle(timeout)`, `read_state`,
group state check).  `recvData` is what a receive deposits in the group's
input region; `readStates` are the states a `read_state` round-trip reports
for slaves `1..n`; `statecheckResult` is the state the group-level
`statecheck` settles on. -/
structure Bus where
  sendResult : Int
  recvResult : Int
  recvData : List Byte
  readStates : List Nat
  statecheckResult : Nat
deriving DecidableEq, Repr

/-- `DriveTxPDO` (`soem_shim.h`): the structured device-status record. -/
structure DriveTxPDO where
  ActualPosition : Int
  AmplifiersEnabled : Nat
  EndStop : Nat
  ThermalProtection1 : Nat
  ThermalProtection2 : Nat
  ForceZero : Nat
  MotorOn : Nat
  ClosedLoop : Nat
  EncoderIndex : Nat
  EncoderValid : Nat
  SearchingIndex : Nat
  PositionReached : Nat
  ErrorCompensation : Nat
  EncoderError : Nat
  Scanning : Nat
  LeftEndStop : Nat
  RightEndStop : Nat
  ErrorLimit : Nat
  SearchingOptimalFrequency : Nat
  SafetyTimeout : Nat
  ExecuteAck : Nat
  EmergencyStop : Nat
  PositionFail : Nat
  Slot : Byte
deriving DecidableEq, Repr

/-- `DriveRxPDO` (`soem_shim.h`): the structured device-command record;
`Command` models the `char Command[32]` array (only its first 4 bytes are
ever written to the wire). -/
structure DriveRxPDO where
  Command : List Byte
  Parameter : Int
  Velocity : Nat
  Acceleration : Nat
  Deceleration : Nat
  Execute : Byte
deriving DecidableEq, Repr

/-- `soem_health_t` (`soem_shim.h`). -/
structure Health where
  slaves_found : Int
  group_expected_wkc : Int
  last_wkc : Int
  bytes_out : Int
  bytes_in : Int
  slaves_op : Int
  al_status_code : Nat
deriving DecidableEq, Repr

/-- Unpacking of the first 8 input bytes into `DriveTxPDO`, exactly as the
body of `soem_read_txpdo` does after its bounds checks: little-endian
`int32` at bytes 0-3, bit-extracted flags from bytes 4-6, raw byte 7. -/
def unpackTx (r : List Byte) : DriveTxPDO :=
  let b4 := (r.getD 4 0).val
  let b5 := (r.getD 5 0).val
  let b6 := (r.getD 6 0).val
  { ActualPosition := toInt32 (le4ToNat r)
    AmplifiersEnabled := (b4 >>> 0) &&& 1
    EndStop := (b4 >>> 1) &&& 1
    ThermalProtection1 := (b4 >>> 2) &&& 1
    ThermalProtection2 := (b4 >>> 3) &&& 1
    ForceZero := (b4 >>> 4) &&& 1
    MotorOn := (b4 >>> 5) &&& 1
    ClosedLoop := (b4 >>> 6) &&& 1
    EncoderIndex := (b4 >>> 7) &&& 1
    EncoderValid := (b5 >>> 0) &&& 1
    SearchingIndex := (b5 >>> 1) &&& 1
    PositionReached := (b5 >>> 2) &&& 1
    ErrorCompensation := (b5 >>> 3) &&& 1
    EncoderError := (b5 >>> 4) &&& 1
    Scanning := (b5 >>> 5) &&& 1
    LeftEndStop := (b5 >>> 6) &&& 1
    RightEndStop := (b5 >>> 7) &&& 1
    ErrorLimit := (b6 >>> 0) &&& 1
    SearchingOptimalFrequency := (b6 >>> 1) &&& 1
    SafetyTimeout := (b6 >>> 2) &&& 1
    ExecuteAck := (b6 >>> 3) &&& 1
    EmergencyStop := (b6 >>> 4) &&& 1
    PositionFail := (b6 >>> 5) &&& 1
    Slot := r.getD 7 0 }

/-- `soem_read_txpdo`: null/range checks first, then the explicit
`Ibytes < IO_TX_BYTES` bounds check, then unpacking.  The caller's record
(`out`, `none` for a null pointer) is returned unchanged on every failure
path and replaced wholesale on success. -/
def soem_read_txpdo (h : Option Handle) (slave_index : Int)
    (out : Option DriveTxPDO) : Int × Option DriveTxPDO :=
  match h, out with
  | some hd, some o =>
    if slave_index ≤ 0 ∨ slave_index > slavecount hd then (0, some o)
    else
      match hd.slavelist[slave_index.toNat - 1]? with
      | none => (0, some o)
      | some s =>
        match s.inputs with
        | none => (0, some o)
        | some r =>
          if r.length < IO_TX_BYTES then (0, some o)
          else (1, some (unpackTx r))
  | _, _ => (0, out)

/-- The six fixed-offset writes of `soem_write_rxpdo` into a checked
output region: command at 0, parameter at 4, velocity at 8, acceleration
at 12, deceleration at 14, execute at 16. -/
def packRxRegion (buf : List Byte) (rec : DriveRxPDO) : List Byte :=
  let buf1 := writeBytes buf 0 (rec.Command.take 4)
  let buf2 := writeBytes buf1 4 (int32ToBytesLE rec.Parameter)
  let buf3 := writeBytes buf2 8 (natToBytesLE 4 rec.Velocity)
  let buf4 := writeBytes buf3 12 (natToBytesLE 2 rec.Acceleration)
  let buf5 := writeBytes buf4 14 (natToBytesLE 2 rec.Deceleration)
  buf5.set 16 rec.Execute

/-- Body of `soem_write_rxpdo` on a non-null handle and record: range and
`Obytes < IO_RX_BYTES` checks, then the six fixed-offset writes via
`packRxRegion`. -/
def writeRxCore (hd : Handle) (slave_index : Int) (rec : DriveRxPDO) :
    Int × Handle :=
  if slave_index ≤ 0 ∨ slave_index > slavecount hd then (0, hd)
  else
    match hd.slavelist[slave_index.toNat - 1]? with
    | none => (0, hd)
    | some s =>
      match s.outputs with
      | none => (0, hd)
      | some buf =>
        if buf.length < IO_RX_BYTES then (0, hd)
        else
          (1, { hd with slavelist := hd.slavelist.set (slave_index.toNat - 1)
                          { s with outputs := some (packRxRegion buf rec) } })

/-- `soem_write_rxpdo` with its null-pointer checks. -/
def soem_write_rxpdo (h : Option Handle) (slave_index : Int)
    (rec : Option DriveRxPDO) : Int × Option Handle :=
  match h, rec with
  | some hd, some r =>
    let p := writeRxCore hd slave_index r
    (p.1, some p.2)
  | _, _ => (0, h)

/-- Outcome of one `soem_exchange_process_data` call: the C return value,
the handle state after the call, and the contents of the caller's `inputs`
buffer after the call (`none` when the caller passed a null pointer). -/
structure ExchRes where
  ret : Int
  handle : Option Handle
  callerInputs : Option (List Byte)
deriving DecidableEq, Repr

/-- `(int)(g->outputsWKC * 2 + g->inputsWKC)`: the expected working
counter derived from the group mapping (both summands are `uint16`, so the
`int` cast cannot overflow or go negative). -/
def expectedWKC (g : Group) : Int := ((g.outputsWKC * 2 + g.inputsWKC : Nat) : Int)

/-- The output-staging step of the extended `soem_exchange_process_data`
(lines 274-282): when the group has output bytes and the caller supplied a
non-empty buffer, `memset` the whole region to zero and then copy
`min(outputs_len, Obytes)` caller bytes in; otherwise leave the staged
region untouched. -/
def stageOutputs (g : Group) (outputs : Option (List Byte)) : Group :=
  if g.outputs.length ≠ 0 then
    match outputs with
    | some o =>
      if 0 < o.length then
        let zeroed := List.replicate g.outputs.length (0 : Byte)
        let copy := min o.length g.outputs.length
        { g with outputs := writeBytes zeroed 0 (o.take copy) }
      else g
    | none => g
  else g

/-- A receive deposits up to `Ibytes` fresh bytes into the group's input
region, preserving the mapped region length. -/
def overwrite (old new : List Byte) : List Byte :=
  writeBytes old 0 (new.take old.length)

/-- Extended `soem_exchange_process_data`: null check, timeout clamp (only
passed through to the external receive, so without model effect), output
staging, send, expected-WKC computation, receive with WKC caching, input
copy-out, and the working-counter policy. -/
def soem_exchange_process_data (h : Option Handle) (bus : Bus)
    (outputs : Option (List Byte)) (inputs : Option (List Byte))
    (timeout_us : Int) : ExchRes :=
  match h with
  | none => { ret := SOEM_ERR_BAD_ARGS, handle := none, callerInputs := inputs }
  | some hd =>
    let _t := max timeout_us 0
    let g1 := stageOutputs hd.group outputs
    let wkc0 := bus.sendResult
    let expected : Int := expectedWKC g1
    if wkc0 < 0 then
      { ret := SOEM_ERR_SEND_FAIL, handle := some { hd with group := g1 },
        callerInputs := inputs }
    else
      let wkc := bus.recvResult
      let g2 := { g1 with inputs := overwrite g1.inputs bus.recvData }
      let hd2 := { hd with group := g2, last_wkc := wkc, last_expected_wkc := expected }
      if wkc < 0 then
        { ret := SOEM_ERR_RECV_FAIL, handle := some hd2, callerInputs := inputs }
      else
        let ci : Option (List Byte) :=
          match inputs with
          | some ibuf =>
            if 0 < ibuf.length ∧ g2.inputs.length ≠ 0 then
              let copy := min ibuf.length g2.inputs.length
              some (writeBytes ibuf 0 (g2.inputs.take copy))
            else some ibuf
          | none => none
        if expected ≤ 0 then { ret := wkc, handle := some hd2, callerInputs := ci }
        else if wkc < expected then
          { ret := SOEM_ERR_WKC_LOW, handle := some hd2, callerInputs := ci }
        else { ret := wkc, handle := some hd2, callerInputs := ci }

/-- Modelled from the spec: the external `read_state` round-trip refreshes
every slave's runtime state (the new states are the bus oracle's report);
it is an external-collaborator operation (`ecx_readstate`). -/
def ecxReadstate (sl : List Slave) (readStates : List Nat) : List Slave :=
  sl.mapIdx fun i s => { s with state := readStates.getD i s.state }

/-- The error-acknowledge pass of `soem_try_recover`: every slave whose
state carries the ERROR flag is rewritten to SAFE_OP + ACK. -/
def clearErrors (sl : List Slave) : List Slave :=
  sl.map fun s =>
    if s.state &&& EC_STATE_ERROR ≠ 0 then
      { s with state := EC_STATE_SAFE_OP ||| EC_STATE_ACK }
    else s

/-- The slave states `soem_try_recover` ends up checking: freshly re-read,
with ERROR-flagged entries replaced by SAFE_OP + ACK. -/
def recoverStates (sl : List Slave) (readStates : List Nat) : List Slave :=
  clearErrors (ecxReadstate sl readStates)

/-- `soem_try_recover`: re-read states, acknowledge errors, request group
OPERATIONAL, run three blind settle cycles (external effects that refresh
the input image), then the group-level state check followed by the
per-slave verify loop. -/
def soem_try_recover (h : Option Handle) (bus : Bus) (timeout_ms : Int) :
    Int × Option Handle :=
  match h with
  | none => (0, none)
  | some hd =>
    let sl2 := recoverStates hd.slavelist bus.readStates
    let g2 := { hd.group with inputs := overwrite hd.group.inputs bus.recvData }
    let hd2 := { hd with slavelist := sl2, group := g2 }
    if bus.statecheckResult ≠ EC_STATE_OPERATIONAL then (0, some hd2)
    else if sl2.all (fun s => s.state = EC_STATE_OPERATIONAL) then (1, some hd2)
    else (0, some hd2)

/-- Body of `soem_get_health` on valid pointers: snapshot fields are taken
from the cached handle data, slave states are re-read, OPERATIONAL slaves
counted over the fresh states, and the first slave's cached AL status code
reported (0 when there are no slaves, from the initial `memset`). -/
def getHealthCore (hd : Handle) (bus : Bus) : Health × Handle :=
  let g := hd.group
  let sl := ecxReadstate hd.slavelist bus.readStates
  let hd2 := { hd with slavelist := sl }
  ({ slaves_found := (hd.slavelist.length : Int)
     group_expected_wkc := expectedWKC g
     last_wkc := hd.last_wkc
     bytes_out := (g.outputs.length : Int)
     bytes_in := (g.inputs.length : Int)
     slaves_op := ((sl.filter (fun s => s.state = EC_STATE_OPERATIONAL)).length : Int)
     al_status_code := match sl.head? with | some s => s.ALstatuscode | none => 0 },
   hd2)

/-- `soem_get_health` with its null-pointer checks; `out` carries the
caller buffer's prior contents (`none` for a null pointer). -/
def soem_get_health (h : Option Handle) (out : Option Health) (bus : Bus) :
    Int × Option Health × Option Handle :=
  match h, out with
  | some hd, some _ =>
    let p := getHealthCore hd bus
    (1, some p.1, some p.2)
  | _, _ => (0, out, h)

namespace Legacy

/-- `soem_handle_t` of the legacy shim (`src/native/soemshim/soem_shim.c`):
fixed-buffer variant without the WKC caches. -/
structure Handle where
  slavelist : List Slave
  group : Group
  output_length : Int
  input_length : Int
deriving DecidableEq, Repr

/-- Outcome of one legacy `soem_exchange_process_data` call. -/
structure ExchRes where
  ret : Int
  handle : Option Handle
  callerInputs : Option (List Byte)
deriving DecidableEq, Repr

/-- Legacy `soem_exchange_process_data` (lines 128-166): returns `-1` on a
null handle; copies caller output bytes straight into the output region
(no prior `memset`), truncated to `Obytes`; sends; a negative send result
is returned raw; receives, copies input bytes out (with no receive-failure
check), and returns the raw receive WKC with no working-counter policy. -/
def soem_exchange_process_data (h : Option Handle) (bus : Bus)
    (outputs : Option (List Byte)) (inputs : Option (List Byte))
    (timeout : Int) : ExchRes :=
  match h with
  | none => { ret := -1, handle := none, callerInputs := inputs }
  | some hd =>
    let _t := timeout
    let g := hd.group
    let g1 :=
      match outputs with
      | some o =>
        if 0 < o.length ∧ 0 < g.outputs.length then
          let copy := min o.length g.outputs.length
          { g with outputs := writeBytes g.outputs 0 (o.take copy) }
        else g
      | none => g
    let wkc0 := bus.sendResult
    if wkc0 < 0 then
      { ret := wkc0, handle := some { hd with group := g1 }, callerInputs := inputs }
    else
      let wkc := bus.recvResult
      let g2 := { g1 with inputs := overwrite g1.inputs bus.recvData }
      let ci : Option (List Byte) :=
        match inputs with
        | some ibuf =>
          if 0 < ibuf.length ∧ 0 < g2.inputs.length then
            let copy := min ibuf.length g2.inputs.length
            some (writeBytes ibuf 0 (g2.inputs.take copy))
          else some ibuf
        | none => none
      { ret := wkc, handle := some { hd with group := g2 }, callerInputs := ci }

end Legacy

/-- Allocation/teardown ledger for `soem_initialize`: which of the three
resources (the `calloc`ed handle, the `malloc`ed IOmap, the opened stack
context) were acquired during the call and which were released again
before it returned. -/
structure Resources where
  handleAllocated : Bool
  handleFreed : Bool
  iomapAllocated : Bool
  iomapFreed : Bool
  ctxOpened : Bool
  ctxClosed : Bool
deriving DecidableEq, Repr

/-- Results the external stack reports during bring-up: `calloc`/`malloc`
success, `ecx_init` success, the `ecx_config_init` slave count, the
`ecx_config_map_group` mapped size, the slave list and group mapping it
establishes, and the bus oracle for the probe exchange. -/
structure InitEnv where
  callocOk : Bool
  ecxInitOk : Bool
  configInitResult : Int
  iomapAllocOk : Bool
  mapGroupResult : Int
  slaves : List Slave
  group : Group
  bus : Bus
deriving DecidableEq, Repr

/-- The IOmap allocation bound of the extended shim (64 KiB). -/
def IOMAP_SIZE : Nat := 65536

/-- The benign no-operation command staged for every slave before the first
cycle: `rx = {0}` then `memcpy(rx.Command, "NOP", 3)`. -/
def nopRx : DriveRxPDO :=
  { Command := [78, 79, 80] ++ List.replicate 29 0
    Parameter := 0
    Velocity := 0
    Acceleration := 0
    Deceleration := 0
    Execute := 0 }

/-- The staging loop of `soem_initialize`: `soem_write_rxpdo` of the NOP
record for slaves `1..count`, failures logged and ignored. -/
def stageNops (hd : Handle) : Handle :=
  (List.range hd.slavelist.length).foldl
    (fun h2 i => (writeRxCore h2 ((i : Int) + 1) nopRx).2) hd

/-- `soem_initialize`: allocation, `ecx_init`, discovery, IOmap allocation
and zeroing, mapping with the explicit bound check, DC configuration,
NOP staging, one probe exchange, diagnostic reads, and the SAFE_OP /
OPERATIONAL state requests (external effects), finishing with the cached
process sizes.  Every failure path frees exactly what was acquired. -/
def soem_initialize (env : InitEnv) : Option Handle × Resources :=
  if !env.callocOk then
    (none, { handleAllocated := false, handleFreed := false, iomapAllocated := false, iomapFreed := false, ctxOpened := false, ctxClosed := false })
  else if !env.ecxInitOk then
    (none, { handleAllocated := true, handleFreed := true, iomapAllocated := false, iomapFreed := false, ctxOpened := false, ctxClosed := false })
  else if env.configInitResult ≤ 0 then
    (none, { handleAllocated := true, handleFreed := true, iomapAllocated := false, iomapFreed := false, ctxOpened := true, ctxClosed := true })
  else if !env.iomapAllocOk then
    (none, { handleAllocated := true, handleFreed := true, iomapAllocated := false, iomapFreed := false, ctxOpened := true, ctxClosed := true })
  else if env.mapGroupResult ≤ 0 then
    (none, { handleAllocated := true, handleFreed := true, iomapAllocated := true, iomapFreed := true, ctxOpened := true, ctxClosed := true })
  else if env.mapGroupResult > (IOMAP_SIZE : Int) then
    (none, { handleAllocated := true, handleFreed := true, iomapAllocated := true, iomapFreed := true, ctxOpened := true, ctxClosed := true })
  else
    let hd0 : Handle := { slavelist := env.slaves, group := env.group, output_length := 0, input_length := 0, last_wkc := -1, last_expected_wkc := 0 }
    let hd1 := stageNops hd0
    let ex := soem_exchange_process_data (some hd1) env.bus none none 2000
    let hd2 := ex.handle.getD hd1
    let hd3 := { hd2 with output_length := (hd2.group.outputs.length : Int), input_length := (hd2.group.inputs.length : Int) }
    (some hd3, { handleAllocated := true, handleFreed := false, iomapAllocated := true, iomapFreed := false, ctxOpened := true, ctxClosed := false })

/-! Concrete states used to evaluate the model on explicit inputs. -/

/-- A handle with the given slaves and group, caches at their
`soem_initialize` start values. -/
def mkHandle (sl : List Slave) (g : Group) : Handle :=
  { slavelist := sl, group := g, output_length := 0, input_length := 0, last_wkc := -1, last_expected_wkc := 0 }

def slaveIn8 : Slave :=
  { state := 8, ALstatuscode := 0, inputs := some [1, 0, 0, 0, 165, 66, 33, 7], outputs := none }

def slaveInShort : Slave :=
  { state := 8, ALstatuscode := 0, inputs := some [1, 2, 3], outputs := none }

def slaveNoIn : Slave :=
  { state := 8, ALstatuscode := 0, inputs := none, outputs := none }

def slaveOut22 : Slave :=
  { state := 8, ALstatuscode := 0, inputs := none, outputs := some (List.replicate 22 255) }

def slaveOutShort : Slave :=
  { state := 8, ALstatuscode := 0, inputs := none, outputs := some (List.replicate 10 255) }

def groupEmpty : Group := { outputs := [], inputs := [], outputsWKC := 0, inputsWKC := 0 }

def group11 : Group := { outputs := [], inputs := [], outputsWKC := 1, inputsWKC := 1 }

def groupIn3 : Group := { outputs := [], inputs := [9, 9, 9], outputsWKC := 1, inputsWKC := 1 }

def groupOut2 : Group := { outputs := [255, 255], inputs := [], outputsWKC := 0, inputsWKC := 0 }

def groupFF20 : Group :=
  { outputs := List.replicate 20 255, inputs := [], outputsWKC := 1, inputsWKC := 1 }

def busOK : Bus :=
  { sendResult := 1, recvResult := 2, recvData := [], readStates := [], statecheckResult := 8 }

def busRecv5 : Bus :=
  { sendResult := 1, recvResult := 5, recvData := [], readStates := [], statecheckResult := 8 }

def busSendFail : Bus :=
  { sendResult := -1, recvResult := 7, recvData := [], readStates := [], statecheckResult := 8 }

def busRecvFail : Bus :=
  { sendResult := 0, recvResult := -5, recvData := [], readStates := [], statecheckResult := 8 }

def busData123 : Bus :=
  { sendResult := 1, recvResult := 2, recvData := [1, 2, 3], readStates := [], statecheckResult := 8 }

def legacyHandleFF : Legacy.Handle :=
  { slavelist := [], group := groupOut2, output_length := 2, input_length := 0 }

def envNoSlaves : InitEnv :=
  { callocOk := true, ecxInitOk := true, configInitResult := 0, iomapAllocOk := true, mapGroupResult := 1, slaves := [], group := groupEmpty, bus := busOK }

def envMapTooBig : InitEnv :=
  { callocOk := true, ecxInitOk := true, configInitResult := 2, iomapAllocOk := true, mapGroupResult := 70000, slaves := [], group := groupEmpty, bus := busOK }

def zeroHealth : Health :=
  { slaves_found := 0, group_expected_wkc := 0, last_wkc := 0, bytes_out := 0, bytes_in := 0, slaves_op := 0, al_status_code := 0 }

def zeroTx : DriveTxPDO :=
  { ActualPosition := 0, AmplifiersEnabled := 0, EndStop := 0, ThermalProtection1 := 0, ThermalProtection2 := 0, ForceZero := 0, MotorOn := 0, ClosedLoop := 0, EncoderIndex := 0, EncoderValid := 0, SearchingIndex := 0, PositionReached := 0, ErrorCompensation := 0, EncoderError := 0, Scanning := 0, LeftEndStop := 0, RightEndStop := 0, ErrorLimit := 0, SearchingOptimalFrequency := 0, SafetyTimeout := 0, ExecuteAck := 0, EmergencyStop := 0, PositionFail := 0, Slot := 0 }

def dposRx : DriveRxPDO :=
  { Command := [68, 80, 79, 83] ++ List.replicate 28 0, Parameter := -2, Velocity := 100000, Acceleration := 770, Deceleration := 5, Execute := 1 }

/-! Helper lemmas. -/

theorem stageOutputs_outputsWKC (g : Group) (o : Option (List Byte)) :
    (stageOutputs g o).outputsWKC = g.outputsWKC := by
  cases o <;> simp only [stageOutputs] <;> split_ifs <;> rfl

theorem stageOutputs_inputsWKC (g : Group) (o : Option (List Byte)) :
    (stageOutputs g o).inputsWKC = g.inputsWKC := by
  cases o <;> simp only [stageOutputs] <;> split_ifs <;> rfl

theorem stageOutputs_inputs (g : Group) (o : Option (List Byte)) :
    (stageOutputs g o).inputs = g.inputs := by
  cases o <;> simp only [stageOutputs] <;> split_ifs <;> rfl

theorem expectedWKC_stageOutputs (g : Group) (o : Option (List Byte)) :
    expectedWKC (stageOutputs g o) = expectedWKC g := by
  unfold expectedWKC
  rw [stageOutputs_outputsWKC, stageOutputs_inputsWKC]

/-- C1: on a valid handle, when both low-level send and receive return
non-negative results, the expected WKC is `2 × outputsWKC + inputsWKC`; if
it is ≤ 0 the observed WKC is returned as-is (best effort, never an
error); if it is > 0 and the observed WKC is strictly below it, the
distinct WKC-low sentinel `-10` is returned; otherwise the observed
WKC (≥ expected) is returned. -/
theorem exchange_wkc_policy (hd : Handle) (bus : Bus)
    (outs ins : Option (List Byte)) (t : Int)
    (hsend : 0 ≤ bus.sendResult) (hrecv : 0 ≤ bus.recvResult) :
    expectedWKC hd.group = ((hd.group.outputsWKC * 2 + hd.group.inputsWKC : Nat) : Int) ∧
    (expectedWKC hd.group ≤ 0 →
      (soem_exchange_process_data (some hd) bus outs ins t).ret = bus.recvResult) ∧
    (0 < expectedWKC hd.group → bus.recvResult < expectedWKC hd.group →
      (soem_exchange_process_data (some hd) bus outs ins t).ret = SOEM_ERR_WKC_LOW ∧
      SOEM_ERR_WKC_LOW = -10) ∧
    (0 < expectedWKC hd.group → expectedWKC hd.group ≤ bus.recvResult →
      (soem_exchange_process_data (some hd) bus outs ins t).ret = bus.recvResult) := by
  have he := expectedWKC_stageOutputs hd.group outs
  refine ⟨rfl, ?_, ?_, ?_⟩
  · intro h1
    simp only [soem_exchange_process_data]
    rw [if_neg (by omega), if_neg (by omega), if_pos (by rw [he]; exact h1)]
  · intro h1 h2
    refine ⟨?_, rfl⟩
    simp only [soem_exchange_process_data]
    rw [if_neg (by omega), if_neg (by omega), if_neg (by rw [he]; omega),
      if_pos (by rw [he]; exact h2)]
  · intro h1 h2
    simp only [soem_exchange_process_data]
    rw [if_neg (by omega), if_neg (by omega), if_neg (by rw [he]; omega),
      if_neg (by rw [he]; omega)]

/-- Witness for C1 at concrete states: expected = 3 with observed 2 yields
the WKC-low sentinel; expected = 0 with observed 5 yields 5 (best effort);
expected = 3 with observed 5 yields 5. -/
theorem exchange_wkc_policy_witness :
    (0 ≤ busOK.sendResult ∧ 0 ≤ busOK.recvResult ∧ 0 < expectedWKC group11 ∧
      busOK.recvResult < expectedWKC group11 ∧
      (soem_exchange_process_data (some (mkHandle [] group11)) busOK none none 0).ret =
        SOEM_ERR_WKC_LOW) ∧
    (0 ≤ busRecv5.sendResult ∧ 0 ≤ busRecv5.recvResult ∧ expectedWKC groupEmpty ≤ 0 ∧
      (soem_exchange_process_data (some (mkHandle [] groupEmpty)) busRecv5 none none 0).ret =
        busRecv5.recvResult) ∧
    (0 ≤ busRecv5.sendResult ∧ 0 ≤ busRecv5.recvResult ∧
      expectedWKC group11 ≤ busRecv5.recvResult ∧
      (soem_exchange_process_data (some (mkHandle [] group11)) busRecv5 none none 0).ret =
        busRecv5.recvResult) := by
  refine ⟨⟨by decide, by decide, by decide, by decide, ?_⟩,
    ⟨by decide, by decide, by decide, ?_⟩, ⟨by decide, by decide, by decide, ?_⟩⟩
  · exact ((exchange_wkc_policy (mkHandle [] group11) busOK none none 0
      (by decide) (by decide)).2.2.1 (by decide) (by decide)).1
  · exact (exchange_wkc_policy (mkHandle [] groupEmpty) busRecv5 none none 0
      (by decide) (by decide)).2.1 (by decide)
  · exact (exchange_wkc_policy (mkHandle [] group11) busRecv5 none none 0
      (by decide) (by decide)).2.2.2 (by decide) (by decide)

/-- C6: whenever the receive step runs (send succeeded) and returns a
non-negative result and the caller supplied a non-null, positive-length
inputs buffer, the post-receive input-region bytes are copied into the
caller's buffer truncated to the group's input length — independently of
the working-counter outcome. -/
theorem exchange_inputs_copied (hd : Handle) (bus : Bus)
    (outs : Option (List Byte)) (ibuf : List Byte) (t : Int)
    (hsend : 0 ≤ bus.sendResult) (hrecv : 0 ≤ bus.recvResult)
    (hlen : 0 < ibuf.length) :
    (soem_exchange_process_data (some hd) bus outs (some ibuf) t).callerInputs =
      some (writeBytes ibuf 0
        ((overwrite hd.group.inputs bus.recvData).take
          (min ibuf.length hd.group.inputs.length))) := by
  have hi := stageOutputs_inputs hd.group outs
  simp only [soem_exchange_process_data]
  rw [if_neg (by omega), if_neg (by omega)]
  have hlen2 : (overwrite (stageOutputs hd.group outs).inputs bus.recvData).length =
      hd.group.inputs.length := by
    unfold overwrite
    rw [length_writeBytes, hi]
  by_cases hz : hd.group.inputs.length = 0
  · have hcond : ¬ (0 < ibuf.length ∧
        (overwrite (stageOutputs hd.group outs).inputs bus.recvData).length ≠ 0) := by
      rw [hlen2]
      simp [hz]
    rw [if_neg hcond]
    have : min ibuf.length hd.group.inputs.length = 0 := by omega
    rw [this]
    simp only [List.take_zero, writeBytes]
    split_ifs <;> rfl
  · have hcond : 0 < ibuf.length ∧
        (overwrite (stageOutputs hd.group outs).inputs bus.recvData).length ≠ 0 := by
      rw [hlen2]
      exact ⟨hlen, hz⟩
    rw [if_pos hcond, hlen2, hi]
    split_ifs <;> rfl

/-- Witness for C6: a WKC-low cycle (expected 3, observed 2) still copies
the freshly received input bytes `[1, 2]` over the caller's 2-byte buffer
(group input length 3, caller buffer shorter, so truncated to 2). -/
theorem exchange_inputs_copied_witness :
    0 ≤ busData123.sendResult ∧ 0 ≤ busData123.recvResult ∧
      0 < ([0, 0] : List Byte).length ∧
      (soem_exchange_process_data (some (mkHandle [] groupIn3)) busData123 none
        (some [0, 0]) 0).ret = SOEM_ERR_WKC_LOW ∧
      (soem_exchange_process_data (some (mkHandle [] groupIn3)) busData123 none
        (some [0, 0]) 0).callerInputs = some [1, 2] := by
  refine ⟨by decide, by decide, by decide, by decide, ?_⟩
  rw [exchange_inputs_copied (mkHandle [] groupIn3) busData123 none [0, 0] 0
    (by decide) (by decide) (by decide)]
  decide

/-- C9: on a valid handle, a negative low-level send result makes the call
return the send-failure sentinel with both WKC cache fields unchanged; the
two cache fields are written exactly when the receive step is reached, and
then `last_wkc` is set to the raw receive result — even a negative one —
and `last_expected_wkc` to the expected WKC. -/
theorem exchange_cache_frame (hd : Handle) (bus : Bus)
    (outs ins : Option (List Byte)) (t : Int) :
    (bus.sendResult < 0 →
      (soem_exchange_process_data (some hd) bus outs ins t).ret = SOEM_ERR_SEND_FAIL ∧
      ((soem_exchange_process_data (some hd) bus outs ins t).handle.map
        fun x => x.last_wkc) = some hd.last_wkc ∧
      ((soem_exchange_process_data (some hd) bus outs ins t).handle.map
        fun x => x.last_expected_wkc) = some hd.last_expected_wkc) ∧
    (0 ≤ bus.sendResult →
      ((soem_exchange_process_data (some hd) bus outs ins t).handle.map
        fun x => x.last_wkc) = some bus.recvResult ∧
      ((soem_exchange_process_data (some hd) bus outs ins t).handle.map
        fun x => x.last_expected_wkc) = some (expectedWKC hd.group)) := by
  have he := expectedWKC_stageOutputs hd.group outs
  constructor
  · intro h1
    simp only [soem_exchange_process_data]
    rw [if_pos h1]
    exact ⟨rfl, rfl, rfl⟩
  · intro h1
    simp only [soem_exchange_process_data]
    rw [if_neg (by omega)]
    by_cases h2 : bus.recvResult < 0
    · rw [if_pos h2]
      exact ⟨rfl, by simp [he]⟩
    · rw [if_neg h2]
      split_ifs <;> exact ⟨rfl, by simp [he]⟩

/-- Witness for C9: a failing send (`-1`) returns the send-failure
sentinel and leaves the initial caches `-1`/`0` in place; a reached but
failing receive (`-5`) is written into `last_wkc`, with
`last_expected_wkc` set to the expected value 3. -/
theorem exchange_cache_frame_witness :
    (busSendFail.sendResult < 0 ∧
      (soem_exchange_process_data (some (mkHandle [] group11)) busSendFail none none 0).ret =
        SOEM_ERR_SEND_FAIL ∧
      ((soem_exchange_process_data (some (mkHandle [] group11)) busSendFail none none 0).handle.map
        fun x => x.last_wkc) = some (mkHandle [] group11).last_wkc ∧
      ((soem_exchange_process_data (some (mkHandle [] group11)) busSendFail none none 0).handle.map
        fun x => x.last_expected_wkc) = some (mkHandle [] group11).last_expected_wkc) ∧
    (0 ≤ busRecvFail.sendResult ∧
      ((soem_exchange_process_data (some (mkHandle [] group11)) busRecvFail none none 0).handle.map
        fun x => x.last_wkc) = some busRecvFail.recvResult ∧
      ((soem_exchange_process_data (some (mkHandle [] group11)) busRecvFail none none 0).handle.map
        fun x => x.last_expected_wkc) = some (expectedWKC group11)) := by
  constructor
  · exact ⟨by decide, (exchange_cache_frame (mkHandle [] group11) busSendFail none none 0).1 (by decide)⟩
  · exact ⟨by decide, (exchange_cache_frame (mkHandle [] group11) busRecvFail none none 0).2 (by decide)⟩

/-- C5: `soem_try_recover` on a valid handle succeeds if and only if the
group-level state check settles on OPERATIONAL and afterwards every
individual slave's (re-read, error-acknowledged) state is exactly
OPERATIONAL; a group-level pass with any slave in another state (e.g.
SAFE_OP) still reports failure. -/
theorem try_recover_iff (hd : Handle) (bus : Bus) (t : Int) :
    (soem_try_recover (some hd) bus t).1 = 1 ↔
      (bus.statecheckResult = EC_STATE_OPERATIONAL ∧
        ∀ s ∈ recoverStates hd.slavelist bus.readStates,
          s.state = EC_STATE_OPERATIONAL) := by
  simp only [soem_try_recover]
  split_ifs with h1 h2
  · simp [h1]
  · simp only [List.all_eq_true, decide_eq_true_eq] at h2
    simp only [not_ne_iff] at h1
    simp only [true_iff, show ((1 : Int) = 1) ↔ True by simp]
    exact ⟨h1, h2⟩
  · simp only [List.all_eq_true, decide_eq_true_eq] at h2
    constructor
    · intro hc
      simp at hc
    · rintro ⟨-, hall⟩
      exact absurd hall h2

theorem getD_eq_of_take_eq (r r' : List Byte) (n k : Nat)
    (h : r.take n = r'.take n) (hk : k < n) : r.getD k 0 = r'.getD k 0 := by
  rw [List.getD_eq_getElem?_getD, List.getD_eq_getElem?_getD]
  have h1 : r[k]? = (r.take n)[k]? := by rw [List.getElem?_take, if_pos hk]
  have h2 : r'[k]? = (r'.take n)[k]? := by rw [List.getElem?_take, if_pos hk]
  rw [h1, h2, h]

/-- `unpackTx` depends on bytes 0..7 of the region only. -/
theorem unpackTx_take8 (r r' : List Byte) (h : r.take 8 = r'.take 8) :
    unpackTx r = unpackTx r' := by
  have e0 := getD_eq_of_take_eq r r' 8 0 h (by omega)
  have e1 := getD_eq_of_take_eq r r' 8 1 h (by omega)
  have e2 := getD_eq_of_take_eq r r' 8 2 h (by omega)
  have e3 := getD_eq_of_take_eq r r' 8 3 h (by omega)
  have e4 := getD_eq_of_take_eq r r' 8 4 h (by omega)
  have e5 := getD_eq_of_take_eq r r' 8 5 h (by omega)
  have e6 := getD_eq_of_take_eq r r' 8 6 h (by omega)
  have e7 := getD_eq_of_take_eq r r' 8 7 h (by omega)
  simp only [unpackTx, le4ToNat, e0, e1, e2, e3, e4, e5, e6, e7]

/-- C2: on a slave whose input region holds at least 8 bytes,
`soem_read_txpdo` succeeds and produces exactly the record unpacked from
bytes 0..7 — signed 32-bit little-endian position from bytes 0-3, the 22
flags from byte 4 bits 0-7, byte 5 bits 0-7 and byte 6 bits 0-5, and byte
7 raw as `Slot` — reading no byte beyond offset 7 (the result depends only
on `r.take 8`); on a region shorter than 8 bytes it returns 0 with the
caller's record untouched. -/
theorem read_txpdo_spec (hd : Handle) (o : DriveTxPDO) (i : Int) (s : Slave)
    (r : List Byte) (hidx : 0 < i) (hcnt : i ≤ slavecount hd)
    (hs : hd.slavelist[i.toNat - 1]? = some s) (hr : s.inputs = some r) :
    (8 ≤ r.length →
      soem_read_txpdo (some hd) i (some o) = (1, some (unpackTx r)) ∧
      (∀ r' : List Byte, r'.take 8 = r.take 8 → unpackTx r' = unpackTx r) ∧
      unpackTx r =
        { ActualPosition := toInt32 ((r.getD 0 0).val + 256 * (r.getD 1 0).val +
            65536 * (r.getD 2 0).val + 16777216 * (r.getD 3 0).val)
          AmplifiersEnabled := ((r.getD 4 0).val >>> 0) &&& 1
          EndStop := ((r.getD 4 0).val >>> 1) &&& 1
          ThermalProtection1 := ((r.getD 4 0).val >>> 2) &&& 1
          ThermalProtection2 := ((r.getD 4 0).val >>> 3) &&& 1
          ForceZero := ((r.getD 4 0).val >>> 4) &&& 1
          MotorOn := ((r.getD 4 0).val >>> 5) &&& 1
          ClosedLoop := ((r.getD 4 0).val >>> 6) &&& 1
          EncoderIndex := ((r.getD 4 0).val >>> 7) &&& 1
          EncoderValid := ((r.getD 5 0).val >>> 0) &&& 1
          SearchingIndex := ((r.getD 5 0).val >>> 1) &&& 1
          PositionReached := ((r.getD 5 0).val >>> 2) &&& 1
          ErrorCompensation := ((r.getD 5 0).val >>> 3) &&& 1
          EncoderError := ((r.getD 5 0).val >>> 4) &&& 1
          Scanning := ((r.getD 5 0).val >>> 5) &&& 1
          LeftEndStop := ((r.getD 5 0).val >>> 6) &&& 1
          RightEndStop := ((r.getD 5 0).val >>> 7) &&& 1
          ErrorLimit := ((r.getD 6 0).val >>> 0) &&& 1
          SearchingOptimalFrequency := ((r.getD 6 0).val >>> 1) &&& 1
          SafetyTimeout := ((r.getD 6 0).val >>> 2) &&& 1
          ExecuteAck := ((r.getD 6 0).val >>> 3) &&& 1
          EmergencyStop := ((r.getD 6 0).val >>> 4) &&& 1
          PositionFail := ((r.getD 6 0).val >>> 5) &&& 1
          Slot := r.getD 7 0 }) ∧
    (r.length < 8 → soem_read_txpdo (some hd) i (some o) = (0, some o)) := by
  constructor
  · intro h8
    refine ⟨?_, fun r' hr' => unpackTx_take8 r' r hr', rfl⟩
    simp only [soem_read_txpdo, hs, hr, IO_TX_BYTES]
    rw [if_neg (by omega), if_neg (by omega)]
  · intro h8
    simp only [soem_read_txpdo, hs, hr, IO_TX_BYTES]
    rw [if_neg (by omega), if_pos h8]

/-- Witness for C2: a slave with the 8-byte region
`[1, 0, 0, 0, 165, 66, 33, 7]` decodes to position 1,
byte-4 flags 1,0,1,0,0,1,0,1 (165 = 0b10100101), and slot 7; a slave with
a 3-byte region fails with the record untouched. -/
theorem read_txpdo_spec_witness :
    ((0 : Int) < 1 ∧ (1 : Int) ≤ slavecount (mkHandle [slaveIn8] groupEmpty) ∧
      (mkHandle [slaveIn8] groupEmpty).slavelist[(1 : Int).toNat - 1]? = some slaveIn8 ∧
      slaveIn8.inputs = some [1, 0, 0, 0, 165, 66, 33, 7] ∧
      (8 ≤ ([1, 0, 0, 0, 165, 66, 33, 7] : List Byte).length ∧
        soem_read_txpdo (some (mkHandle [slaveIn8] groupEmpty)) 1 (some zeroTx) =
          (1, some (unpackTx [1, 0, 0, 0, 165, 66, 33, 7])))) ∧
    ((mkHandle [slaveInShort] groupEmpty).slavelist[(1 : Int).toNat - 1]? = some slaveInShort ∧
      slaveInShort.inputs = some [1, 2, 3] ∧
      (([1, 2, 3] : List Byte).length < 8 ∧
        soem_read_txpdo (some (mkHandle [slaveInShort] groupEmpty)) 1 (some zeroTx) =
          (0, some zeroTx))) := by
  constructor
  · refine ⟨by decide, by decide, by decide, by decide, by decide, ?_⟩
    exact ((read_txpdo_spec (mkHandle [slaveIn8] groupEmpty) zeroTx 1 slaveIn8
      [1, 0, 0, 0, 165, 66, 33, 7] (by decide) (by decide) (by decide) (by decide)).1
      (by decide)).1
  · refine ⟨by decide, by decide, by decide, ?_⟩
    exact (read_txpdo_spec (mkHandle [slaveInShort] groupEmpty) zeroTx 1 slaveInShort
      [1, 2, 3] (by decide) (by decide) (by decide) (by decide)).2 (by decide)

/-- C10: every failing `soem_read_txpdo` call — null handle, null output
record, slave index ≤ 0 or above the slave count, null input-region
pointer, or an input region shorter than 8 bytes — returns 0 and leaves
the caller's record exactly as it was: no field is written before the
checks pass. -/
theorem read_txpdo_failure (hd : Handle) (i : Int) (o : DriveTxPDO)
    (out : Option DriveTxPDO) :
    (soem_read_txpdo none i out = (0, out)) ∧
    (soem_read_txpdo (some hd) i none = (0, none)) ∧
    (i ≤ 0 ∨ slavecount hd < i →
      soem_read_txpdo (some hd) i (some o) = (0, some o)) ∧
    (∀ s, hd.slavelist[i.toNat - 1]? = some s → s.inputs = none →
      soem_read_txpdo (some hd) i (some o) = (0, some o)) ∧
    (∀ s r, hd.slavelist[i.toNat - 1]? = some s → s.inputs = some r →
      r.length < 8 → soem_read_txpdo (some hd) i (some o) = (0, some o)) := by
  refine ⟨rfl, rfl, ?_, ?_, ?_⟩
  · intro hbad
    simp only [soem_read_txpdo]
    rw [if_pos (by omega)]
  · intro s hs hnone
    simp only [soem_read_txpdo, hs, hnone, IO_TX_BYTES]
    split_ifs <;> rfl
  · intro s r hs hr hlen
    simp only [soem_read_txpdo, hs, hr, IO_TX_BYTES]
    split_ifs <;> first | rfl | omega

/-- Witness for C10 at concrete failing inputs: index 0 (≤ 0), index 2 on
a 1-slave handle, a slave with a null input region, and a slave with a
3-byte region all return 0 with the record unchanged. -/
theorem read_txpdo_failure_witness :
    (soem_read_txpdo none 1 (some zeroTx) = (0, some zeroTx)) ∧
    (soem_read_txpdo (some (mkHandle [slaveIn8] groupEmpty)) 1 none = (0, none)) ∧
    (((0 : Int) ≤ 0 ∨ slavecount (mkHandle [slaveIn8] groupEmpty) < 0) ∧
      soem_read_txpdo (some (mkHandle [slaveIn8] groupEmpty)) 0 (some zeroTx) =
        (0, some zeroTx)) ∧
    ((mkHandle [slaveNoIn] groupEmpty).slavelist[(1 : Int).toNat - 1]? = some slaveNoIn ∧
      slaveNoIn.inputs = none ∧
      soem_read_txpdo (some (mkHandle [slaveNoIn] groupEmpty)) 1 (some zeroTx) =
        (0, some zeroTx)) ∧
    (([1, 2, 3] : List Byte).length < 8 ∧
      soem_read_txpdo (some (mkHandle [slaveInShort] groupEmpty)) 1 (some zeroTx) =
        (0, some zeroTx)) := by
  refine ⟨?_, ?_, ⟨by decide, ?_⟩, ⟨by decide, by decide, ?_⟩, ⟨by decide, ?_⟩⟩
  · exact (read_txpdo_failure (mkHandle [] groupEmpty) 1 zeroTx (some zeroTx)).1
  · exact (read_txpdo_failure (mkHandle [slaveIn8] groupEmpty) 1 zeroTx none).2.1
  · exact (read_txpdo_failure (mkHandle [slaveIn8] groupEmpty) 0 zeroTx none).2.2.1
      (Or.inl (by omega))
  · exact (read_txpdo_failure (mkHandle [slaveNoIn] groupEmpty) 1 zeroTx none).2.2.2.1
      slaveNoIn (by decide) (by decide)
  · exact (read_txpdo_failure (mkHandle [slaveInShort] groupEmpty) 1 zeroTx none).2.2.2.2
      slaveInShort [1, 2, 3] (by decide) (by decide) (by decide)

theorem stageOutputs_none (g : Group) : stageOutputs g none = g := by
  simp only [stageOutputs]
  split_ifs <;> rfl

theorem stageOutputs_nil (g : Group) : stageOutputs g (some []) = g := by
  simp only [stageOutputs]
  split_ifs with h1 h2
  · simp at h2
  · rfl
  · rfl

theorem stageOutputs_some (g : Group) (o : List Byte)
    (h1 : 0 < o.length) (h2 : g.outputs.length ≠ 0) :
    (stageOutputs g (some o)).outputs =
      writeBytes (List.replicate g.outputs.length 0) 0
        (o.take (min o.length g.outputs.length)) := by
  simp only [stageOutputs]
  rw [if_pos h2, if_pos h1]

/-- Whatever the send/receive outcome, the extended exchange leaves the
group's output region exactly as the staging step produced it. -/
theorem exchange_group_outputs (hd : Handle) (bus : Bus)
    (outs ins : Option (List Byte)) (t : Int) :
    ((soem_exchange_process_data (some hd) bus outs ins t).handle.map
      fun x => x.group.outputs) = some ((stageOutputs hd.group outs).outputs) := by
  cases ins <;> (simp only [soem_exchange_process_data]; split_ifs <;> rfl)

/-- Whatever the send/receive outcome, the legacy exchange leaves the
group's output region exactly as its copy-without-zeroing step produced
it. -/
theorem legacy_exchange_group_outputs (lhd : Legacy.Handle) (bus : Bus)
    (outs ins : Option (List Byte)) (t : Int) :
    ((Legacy.soem_exchange_process_data (some lhd) bus outs ins t).handle.map
      fun x => x.group.outputs) =
      some (match outs with
        | some o =>
          if 0 < o.length ∧ 0 < lhd.group.outputs.length then
            writeBytes lhd.group.outputs 0 (o.take (min o.length lhd.group.outputs.length))
          else lhd.group.outputs
        | none => lhd.group.outputs) := by
  cases outs <;> cases ins <;>
    (simp only [Legacy.soem_exchange_process_data]; split_ifs <;> rfl)

theorem length_natToBytesLE (w v : Nat) : (natToBytesLE w v).length = w := by
  induction w generalizing v with
  | zero => rfl
  | succ n ih => simp [natToBytesLE, ih]

theorem length_int32ToBytesLE (p : Int) : (int32ToBytesLE p).length = 4 :=
  length_natToBytesLE 4 _

set_option maxHeartbeats 2000000 in
/-- The packed output region in closed form: the six fields in sequence at
offsets 0, 4, 8, 12, 14, 16, with every byte from offset 17 on preserved
from the previous contents. -/
theorem packRxRegion_eq (buf : List Byte) (rec : DriveRxPDO)
    (hlen : 20 ≤ buf.length) (hcmd : 4 ≤ rec.Command.length) :
    packRxRegion buf rec =
      rec.Command.take 4 ++ int32ToBytesLE rec.Parameter ++
      natToBytesLE 4 rec.Velocity ++ natToBytesLE 2 rec.Acceleration ++
      natToBytesLE 2 rec.Deceleration ++ [rec.Execute] ++ buf.drop 17 := by
  have hc : (rec.Command.take 4).length = 4 := by rw [List.length_take]; omega
  have hp := length_int32ToBytesLE rec.Parameter
  have hv := length_natToBytesLE 4 rec.Velocity
  have ha := length_natToBytesLE 2 rec.Acceleration
  have hde := length_natToBytesLE 2 rec.Deceleration
  apply List.ext_getElem?
  intro j
  simp only [packRxRegion]
  rw [List.getElem?_set, getElem?_writeBytes, getElem?_writeBytes,
    getElem?_writeBytes, getElem?_writeBytes, getElem?_writeBytes]
  simp only [length_writeBytes, hc, hp, hv, ha, hde, List.getElem?_append,
    List.length_append, List.length_cons, List.length_nil, List.getElem?_drop,
    Nat.sub_sub]
  split_ifs <;> first
    | rfl
    | omega
    | (congr 1; omega)
    | (rw [show j - 16 = 0 from by omega]; rfl)

/-- C3: on a slave whose output region holds at least 20 bytes,
`soem_write_rxpdo` succeeds and rewrites exactly the 17 bytes at offsets
0-16 — the 4-byte command at 0, the signed 32-bit parameter at 4, the
unsigned 32-bit velocity at 8, the 16-bit acceleration at 12, the 16-bit
deceleration at 14, the execute byte at 16 — leaving every byte from
offset 17 on (in particular bytes 17-19) untouched; on a region shorter
than 20 bytes it returns 0 and writes nothing. -/
theorem write_rxpdo_spec (hd : Handle) (i : Int) (rec : DriveRxPDO)
    (s : Slave) (buf : List Byte) (hidx : 0 < i) (hcnt : i ≤ slavecount hd)
    (hs : hd.slavelist[i.toNat - 1]? = some s) (hbuf : s.outputs = some buf)
    (hcmd : 4 ≤ rec.Command.length) :
    (20 ≤ buf.length →
      soem_write_rxpdo (some hd) i (some rec) =
        (1, some { hd with slavelist := hd.slavelist.set (i.toNat - 1) ({ s with outputs := some (packRxRegion buf rec) }) }) ∧
      packRxRegion buf rec =
        rec.Command.take 4 ++ int32ToBytesLE rec.Parameter ++
        natToBytesLE 4 rec.Velocity ++ natToBytesLE 2 rec.Acceleration ++
        natToBytesLE 2 rec.Deceleration ++ [rec.Execute] ++ buf.drop 17 ∧
      (rec.Command.take 4).length = 4 ∧
      (int32ToBytesLE rec.Parameter).length = 4 ∧
      (natToBytesLE 4 rec.Velocity).length = 4 ∧
      (natToBytesLE 2 rec.Acceleration).length = 2 ∧
      (natToBytesLE 2 rec.Deceleration).length = 2) ∧
    (buf.length < 20 →
      soem_write_rxpdo (some hd) i (some rec) = (0, some hd)) := by
  constructor
  · intro h20
    refine ⟨?_, packRxRegion_eq buf rec h20 hcmd,
      by rw [List.length_take]; omega, length_int32ToBytesLE _,
      length_natToBytesLE _ _, length_natToBytesLE _ _, length_natToBytesLE _ _⟩
    simp only [soem_write_rxpdo, writeRxCore, hs, hbuf, IO_RX_BYTES]
    rw [if_neg (by omega), if_neg (by omega)]
  · intro h20
    simp only [soem_write_rxpdo, writeRxCore, hs, hbuf, IO_RX_BYTES]
    rw [if_neg (by omega), if_pos h20]

/-- Witness for C3: packing the command record
(`"DPOS"`, parameter −2, velocity 100000, acceleration 770, deceleration
5, execute 1) into a 22-byte region pre-filled with 255 writes exactly the
expected 17 bytes and keeps the five trailing 255 bytes; a 10-byte region
fails with nothing written. -/
theorem write_rxpdo_spec_witness :
    ((0 : Int) < 1 ∧ (1 : Int) ≤ slavecount (mkHandle [slaveOut22] groupEmpty) ∧
      (mkHandle [slaveOut22] groupEmpty).slavelist[(1 : Int).toNat - 1]? = some slaveOut22 ∧
      slaveOut22.outputs = some (List.replicate 22 255) ∧
      4 ≤ dposRx.Command.length ∧
      (20 ≤ (List.replicate 22 (255 : Byte)).length ∧
        soem_write_rxpdo (some (mkHandle [slaveOut22] groupEmpty)) 1 (some dposRx) =
          (1, some { mkHandle [slaveOut22] groupEmpty with slavelist := (mkHandle [slaveOut22] groupEmpty).slavelist.set ((1 : Int).toNat - 1) ({ slaveOut22 with outputs := some (packRxRegion (List.replicate 22 255) dposRx) }) })) ∧
      packRxRegion (List.replicate 22 255) dposRx =
        [68, 80, 79, 83, 254, 255, 255, 255, 160, 134, 1, 0, 2, 3, 5, 0, 1,
          255, 255, 255, 255, 255]) ∧
    ((List.replicate 10 (255 : Byte)).length < 20 ∧
      soem_write_rxpdo (some (mkHandle [slaveOutShort] groupEmpty)) 1 (some dposRx) =
        (0, some (mkHandle [slaveOutShort] groupEmpty))) := by
  constructor
  · refine ⟨by decide, by decide, by decide, by decide, by decide, ⟨by decide, ?_⟩, by decide⟩
    exact ((write_rxpdo_spec (mkHandle [slaveOut22] groupEmpty) 1 dposRx slaveOut22
      (List.replicate 22 255) (by decide) (by decide) (by decide) (by decide)
      (by decide)).1 (by decide)).1
  · refine ⟨by decide, ?_⟩
    exact (write_rxpdo_spec (mkHandle [slaveOutShort] groupEmpty) 1 dposRx slaveOutShort
      (List.replicate 10 255) (by decide) (by decide) (by decide) (by decide)
      (by decide)).2 (by decide)

/-- C4 counterexample: the legacy `soem_exchange_process_data`
(`src/native/soemshim/soem_shim.c`), named by the claim, does not zero the
output region before copying: with the 2-byte region pre-filled `[255,
255]` and a 1-byte caller payload `[0]`, the region ends as `[0, 255]` —
the byte beyond the payload keeps its stale `255` instead of the zero the
claim requires. -/
theorem exchange_zero_then_copy_counterexample :
    ((Legacy.soem_exchange_process_data (some legacyHandleFF) busOK (some [0]) none 0).handle.map
      fun x => x.group.outputs) = some [0, 255] ∧
    some ([0, 255] : List Byte) ≠ some ([0, 0] : List Byte) := by
  decide

/-- C4 amended: in the extended (soemshim-linux) implementation a
non-empty caller outputs buffer on a non-empty output region zeroes the
whole region and then copies the caller's bytes in truncated to the
region's length, so region bytes beyond the payload are 0; in the legacy
(soemshim) implementation the caller's bytes are copied in without prior
zeroing, so region bytes at or beyond the payload length keep their
previous values; in both implementations an omitted outputs argument
(null or zero length) leaves every byte of the output region unchanged. -/
theorem exchange_output_staging (hd : Handle) (lhd : Legacy.Handle)
    (bus : Bus) (ins : Option (List Byte)) (t : Int) :
    (∀ o : List Byte, 0 < o.length → hd.group.outputs.length ≠ 0 →
      ((soem_exchange_process_data (some hd) bus (some o) ins t).handle.map
        fun x => x.group.outputs) =
        some (writeBytes (List.replicate hd.group.outputs.length 0) 0
          (o.take (min o.length hd.group.outputs.length))) ∧
      (∀ j, j < hd.group.outputs.length →
        ((soem_exchange_process_data (some hd) bus (some o) ins t).handle.map
          fun x => x.group.outputs[j]?) =
          some (if j < o.length then o[j]? else some 0))) ∧
    (((soem_exchange_process_data (some hd) bus none ins t).handle.map
      fun x => x.group.outputs) = some hd.group.outputs) ∧
    (((soem_exchange_process_data (some hd) bus (some []) ins t).handle.map
      fun x => x.group.outputs) = some hd.group.outputs) ∧
    (∀ o : List Byte, 0 < o.length → 0 < lhd.group.outputs.length →
      ((Legacy.soem_exchange_process_data (some lhd) bus (some o) ins t).handle.map
        fun x => x.group.outputs) =
        some (writeBytes lhd.group.outputs 0
          (o.take (min o.length lhd.group.outputs.length))) ∧
      (∀ j, o.length ≤ j →
        ((Legacy.soem_exchange_process_data (some lhd) bus (some o) ins t).handle.map
          fun x => x.group.outputs[j]?) = some (lhd.group.outputs[j]?))) ∧
    (((Legacy.soem_exchange_process_data (some lhd) bus none ins t).handle.map
      fun x => x.group.outputs) = some lhd.group.outputs) ∧
    (((Legacy.soem_exchange_process_data (some lhd) bus (some []) ins t).handle.map
      fun x => x.group.outputs) = some lhd.group.outputs) := by
  refine ⟨?_, ?_, ?_, ?_, ?_, ?_⟩
  · intro o h1 h2
    have hmain := exchange_group_outputs hd bus (some o) ins t
    rw [stageOutputs_some hd.group o h1 h2] at hmain
    refine ⟨hmain, ?_⟩
    intro j hj
    have hbyte : ((soem_exchange_process_data (some hd) bus (some o) ins t).handle.map
        fun x => x.group.outputs[j]?) =
        ((soem_exchange_process_data (some hd) bus (some o) ins t).handle.map
          fun x => x.group.outputs).map (fun l => l[j]?) := by
      cases (soem_exchange_process_data (some hd) bus (some o) ins t).handle <;> rfl
    rw [hbyte, hmain]
    simp only [Option.map_some']
    congr 1
    rw [getElem?_writeBytes]
    simp only [List.length_take, List.length_replicate, List.getElem?_take,
      List.getElem?_replicate, Nat.sub_zero]
    split_ifs <;> first | rfl | omega
  · rw [exchange_group_outputs hd bus none ins t, stageOutputs_none]
  · rw [exchange_group_outputs hd bus (some []) ins t, stageOutputs_nil]
  · intro o h1 h2
    have hmain := legacy_exchange_group_outputs lhd bus (some o) ins t
    simp only [if_pos (And.intro h1 h2)] at hmain
    refine ⟨hmain, ?_⟩
    intro j hj
    have hbyte : ((Legacy.soem_exchange_process_data (some lhd) bus (some o) ins t).handle.map
        fun x => x.group.outputs[j]?) =
        ((Legacy.soem_exchange_process_data (some lhd) bus (some o) ins t).handle.map
          fun x => x.group.outputs).map (fun l => l[j]?) := by
      cases (Legacy.soem_exchange_process_data (some lhd) bus (some o) ins t).handle <;> rfl
    rw [hbyte, hmain]
    simp only [Option.map_some']
    congr 1
    apply writeBytes_zero_out
    right
    have : (o.take (min o.length lhd.group.outputs.length)).length ≤ o.length := by
      rw [List.length_take]
      omega
    omega
  · rw [legacy_exchange_group_outputs lhd bus none ins t]
  · have hmain := legacy_exchange_group_outputs lhd bus (some []) ins t
    simp only [List.length_nil] at hmain
    rw [hmain, if_neg (by omega)]

/-- Witness for C4 at the spec's own scenario on the extended
implementation: a 20-byte region pre-filled with 255 and an all-zero
20-byte payload reads back all-zero, while the legacy implementation with
a stale `[255, 255]` region and payload `[0]` keeps the stale `255`. -/
theorem exchange_output_staging_witness :
    (0 < (List.replicate 20 (0 : Byte)).length ∧
      (mkHandle [] groupFF20).group.outputs.length ≠ 0 ∧
      ((soem_exchange_process_data (some (mkHandle [] groupFF20)) busOK
        (some (List.replicate 20 0)) none 0).handle.map fun x => x.group.outputs) =
        some (List.replicate 20 0)) ∧
    (0 < ([0] : List Byte).length ∧ 0 < legacyHandleFF.group.outputs.length ∧
      ((Legacy.soem_exchange_process_data (some legacyHandleFF) busOK (some [0])
        none 0).handle.map fun x => x.group.outputs[1]?) =
        some (legacyHandleFF.group.outputs[1]?) ∧
      legacyHandleFF.group.outputs[1]? = some 255) := by
  constructor
  · refine ⟨by decide, by decide, ?_⟩
    rw [((exchange_output_staging (mkHandle [] groupFF20) legacyHandleFF busOK none 0).1
      (List.replicate 20 0) (by decide) (by decide)).1]
    decide
  · refine ⟨by decide, by decide, ?_, by decide⟩
    exact ((exchange_output_staging (mkHandle [] groupFF20) legacyHandleFF busOK none 0).2.2.2.1
      [0] (by decide) (by decide)).2 1 (by decide)

/-- C7: when the external stack's discovery reports a zero or negative
slave count, `soem_initialize` returns no handle, having freed the handle
allocation and closed the context (the IOmap was not yet allocated); when
the reported mapped size exceeds the 64 KiB allocation bound, it likewise
returns no handle, having freed both the handle and the IOmap and closed
the context — no partially-constructed session escapes either failure. -/
theorem initialize_failure_cleanup (env : InitEnv)
    (hcalloc : env.callocOk = true) (hinit : env.ecxInitOk = true) :
    (env.configInitResult ≤ 0 →
      soem_initialize env = (none, { handleAllocated := true, handleFreed := true, iomapAllocated := false, iomapFreed := false, ctxOpened := true, ctxClosed := true })) ∧
    (0 < env.configInitResult → env.iomapAllocOk = true →
      (IOMAP_SIZE : Int) < env.mapGroupResult →
      soem_initialize env = (none, { handleAllocated := true, handleFreed := true, iomapAllocated := true, iomapFreed := true, ctxOpened := true, ctxClosed := true })) := by
  constructor
  · intro h1
    simp only [ soem_initialize, hcalloc, hinit, Bool.not_true, Bool.false_eq_true,
      if_false, if_pos h1]
  · intro h1 h2 h3
    have hpos : (0 : Int) < env.mapGroupResult := by
      have : (0 : Int) < (IOMAP_SIZE : Int) := by simp [IOMAP_SIZE]
      omega
    simp only [ soem_initialize, hcalloc, hinit, h2, Bool.not_true, Bool.false_eq_true,
      if_false]
    rw [if_neg (by omega), if_neg (by omega), if_pos h3]

/-- Witness for C7: the no-slaves environment and the oversized-mapping
environment both fail with every acquired resource released. -/
theorem initialize_failure_cleanup_witness :
    (envNoSlaves.callocOk = true ∧ envNoSlaves.ecxInitOk = true ∧
      envNoSlaves.configInitResult ≤ 0 ∧
      soem_initialize envNoSlaves = (none, { handleAllocated := true, handleFreed := true, iomapAllocated := false, iomapFreed := false, ctxOpened := true, ctxClosed := true })) ∧
    (envMapTooBig.callocOk = true ∧ envMapTooBig.ecxInitOk = true ∧
      0 < envMapTooBig.configInitResult ∧ envMapTooBig.iomapAllocOk = true ∧
      (IOMAP_SIZE : Int) < envMapTooBig.mapGroupResult ∧
      soem_initialize envMapTooBig = (none, { handleAllocated := true, handleFreed := true, iomapAllocated := true, iomapFreed := true, ctxOpened := true, ctxClosed := true })) := by
  constructor
  · exact ⟨rfl, rfl, by decide,
      (initialize_failure_cleanup envNoSlaves rfl rfl).1 (by decide)⟩
  · exact ⟨rfl, rfl, by decide, rfl, by decide,
      (initialize_failure_cleanup envMapTooBig rfl rfl).2 (by decide) rfl (by decide)⟩

theorem ecxReadstate_head_AL (sl : List Slave) (rs : List Nat) :
    ((ecxReadstate sl rs).head?.map fun s => s.ALstatuscode) =
      (sl.head?.map fun s => s.ALstatuscode) := by
  cases sl with
  | nil => rfl
  | cons a l => simp [ecxReadstate, List.mapIdx_cons]

/-- C8 counterexample: on a reachable session state whose probe exchange
never reached its receive step (caches still `-1`/`0`) but whose group
maps WKC contributions 1 and 1, `soem_get_health` reports expected WKC 3
while the cached `last_expected_wkc` is 0 — the reported value is not the
cached one the claim names. -/
theorem get_health_cached_expected_counterexample :
    ((soem_get_health (some (mkHandle [] group11)) (some zeroHealth) busOK).2.1.map
      fun x => x.group_expected_wkc) = some 3 ∧
    (mkHandle [] group11).last_expected_wkc = 0 ∧ ((3 : Int) ≠ 0) := by
  decide

/-- C8 amended: `soem_get_health` on a valid handle and output pointer
re-reads all slave states, counts the slaves whose fresh state is exactly
OPERATIONAL, reports the cached `last_wkc` from the most recent exchange,
reports an expected WKC recomputed from the group's WKC contributions
(`2 × outputsWKC + inputsWKC` — equal to the cached
`last_expected_wkc` whenever an exchange has reached its receive step on
the unchanged mapping, but not read from the cache), and reports the
first slave's stored abort/status code, 0 when there are no slaves. -/
theorem get_health_spec (hd : Handle) (out0 : Health) (bus : Bus) :
    soem_get_health (some hd) (some out0) bus =
      (1,
       some { slaves_found := (hd.slavelist.length : Int), group_expected_wkc := expectedWKC hd.group, last_wkc := hd.last_wkc, bytes_out := (hd.group.outputs.length : Int), bytes_in := (hd.group.inputs.length : Int), slaves_op := ((List.countP (fun s => decide (s.state = EC_STATE_OPERATIONAL)) (ecxReadstate hd.slavelist bus.readStates) : Nat) : Int), al_status_code := (hd.slavelist.head?.map fun s => s.ALstatuscode).getD 0 },
       some { hd with slavelist := ecxReadstate hd.slavelist bus.readStates }) := by
  have hAL := ecxReadstate_head_AL hd.slavelist bus.readStates
  simp only [soem_get_health, getHealthCore]
  refine congrArg (fun z => ((1 : Int), z)) ?_
  refine congrArg₂ (fun a b => (a, b)) ?_ rfl
  refine congrArg some ?_
  simp only [Health.mk.injEq]
  refine ⟨trivial, trivial, trivial, trivial, trivial, ?_, ?_⟩
  · rw [List.countP_eq_length_filter]
  · rw [← hAL]
    cases hcase : (ecxReadstate hd.slavelist bus.readStates).head? <;> simp [hcase]

/-- Witness for C8's amended theorem at a concrete state: two slaves whose
re-read states are OPERATIONAL and SAFE_OP give an OPERATIONAL count of 1,
the cached `last_wkc` −1 is reported, and the first slave's stored abort
code 0 is reported. -/
theorem get_health_spec_witness :
    (soem_get_health (some (mkHandle [slaveIn8, slaveInShort] group11)) (some zeroHealth)
      { sendResult := 1, recvResult := 1, recvData := [], readStates := [8, 4], statecheckResult := 8 }).1 = 1 ∧
    ((soem_get_health (some (mkHandle [slaveIn8, slaveInShort] group11)) (some zeroHealth)
      { sendResult := 1, recvResult := 1, recvData := [], readStates := [8, 4], statecheckResult := 8 }).2.1.map
        fun x => (x.slaves_op, x.last_wkc, x.group_expected_wkc, x.al_status_code)) =
      some (1, -1, 3, 0) := by
  constructor
  · rw [get_health_spec (mkHandle [slaveIn8, slaveInShort] group11) zeroHealth
      { sendResult := 1, recvResult := 1, recvData := [], readStates := [8, 4], statecheckResult := 8 }]
  · rw [get_health_spec (mkHandle [slaveIn8, slaveInShort] group11) zeroHealth
      { sendResult := 1, recvResult := 1, recvData := [], readStates := [8, 4], statecheckResult := 8 }]
    decide

/-- Witness for C5 (scenario from the spec): group state check reports
OPERATIONAL but one slave remains in SAFE_OP, so recovery reports
failure. -/
theorem try_recover_iff_witness :
    ({ sendResult := 1, recvResult := 1, recvData := [], readStates := [8, 4],
       statecheckResult := 8 : Bus }).statecheckResult = EC_STATE_OPERATIONAL ∧
    ¬ ((soem_try_recover (some (mkHandle [slaveIn8, slaveInShort] groupEmpty))
        { sendResult := 1, recvResult := 1, recvData := [], readStates := [8, 4],
          statecheckResult := 8 } 100).1 = 1) := by
  refine ⟨by decide, ?_⟩
  rw [try_recover_iff (mkHandle [slaveIn8, slaveInShort] groupEmpty)
    { sendResult := 1, recvResult := 1, recvData := [], readStates := [8, 4],
      statecheckResult := 8 } 100]
  decide

end Soem
